import Mathlib

/-!
Verification of the `rn-bluetooth-classic-printer` repository: a shallow
embedding of its ESC/POS command encoder / composer (TypeScript, `EscPos.ts`)
and of its Android Bluetooth device bridge (Kotlin,
`RnBluetoothClassicPrinterModule`), together with proofs of the behavioural
claims made by the specification.

Commands are transport-encoded as base64 text in the source (`btoa` /
`String.fromCharCode` on the encoding side, `atob` / `charCodeAt` on the
decoding side), so the base64 codec is modelled explicitly: a byte is a `Nat`
(meaningful when `< 256`), a command is a base64 `String`.
-/

namespace B64

/-- The standard base64 alphabet, as used by JavaScript `btoa`/`atob`. -/
def b64Alphabet : List Char :=
  ['A', 'B', 'C', 'D', 'E', 'F', 'G', 'H', 'I', 'J', 'K', 'L', 'M',
   'N', 'O', 'P', 'Q', 'R', 'S', 'T', 'U', 'V', 'W', 'X', 'Y', 'Z',
   'a', 'b', 'c', 'd', 'e', 'f', 'g', 'h', 'i', 'j', 'k', 'l', 'm',
   'n', 'o', 'p', 'q', 'r', 's', 't', 'u', 'v', 'w', 'x', 'y', 'z',
   '0', '1', '2', '3', '4', '5', '6', '7', '8', '9', '+', '/']

/-- The base64 digit character for a 6-bit value. -/
def b64Char (n : Nat) : Char := b64Alphabet.getD n 'A'

/-- Position of a character in a character list (leftmost match). -/
def b64IndexChars : List Char → Char → Option Nat
  | [], _ => none
  | d :: ds, c =>
    if d = c then some 0 else (b64IndexChars ds c).map (fun i => i + 1)

/-- The 6-bit value of a base64 digit character, `none` for non-digits. -/
def b64Index (c : Char) : Option Nat := b64IndexChars b64Alphabet c

/-- Base64-encode a byte list (each byte `< 256`), producing the character
stream of JavaScript `btoa(String.fromCharCode(...bytes))`: 3-byte groups
become 4 digits, a trailing 1- or 2-byte group is padded with `=`. -/
def b64EncodeChars : List Nat → List Char
  | [] => []
  | [b0] => [b64Char (b0 / 4), b64Char (b0 % 4 * 16), '=', '=']
  | [b0, b1] =>
      [b64Char (b0 / 4), b64Char (b0 % 4 * 16 + b1 / 16),
       b64Char (b1 % 16 * 4), '=']
  | b0 :: b1 :: b2 :: rest =>
      b64Char (b0 / 4) :: b64Char (b0 % 4 * 16 + b1 / 16) ::
      b64Char (b1 % 16 * 4 + b2 / 64) :: b64Char (b2 % 64) ::
      b64EncodeChars rest

theorem b64EncodeChars_cons (b0 b1 b2 : Nat) (rest : List Nat) :
    b64EncodeChars (b0 :: b1 :: b2 :: rest) =
      b64Char (b0 / 4) :: b64Char (b0 % 4 * 16 + b1 / 16) ::
      b64Char (b1 % 16 * 4 + b2 / 64) :: b64Char (b2 % 64) ::
      b64EncodeChars rest := rfl

/-- JavaScript `btoa(String.fromCharCode(...bytes))`, as a `String`. -/
def toBase64 (bytes : List Nat) : String := String.mk (b64EncodeChars bytes)

/-- Base64-decode a character stream back to bytes: the inverse direction of
`b64EncodeChars`, failing (`none`) on malformed input. Models JavaScript
`atob` (which throws on malformed input) on canonical padded base64. -/
def b64DecodeChars : List Char → Option (List Nat)
  | [] => some []
  | c0 :: c1 :: c2 :: c3 :: rest =>
    match b64Index c0, b64Index c1 with
    | some n0, some n1 =>
      if c2 = '=' then
        if c3 = '=' ∧ rest = [] then some [n0 * 4 + n1 / 16] else none
      else
        match b64Index c2 with
        | some n2 =>
          if c3 = '=' then
            if rest = [] then some [n0 * 4 + n1 / 16, n1 % 16 * 16 + n2 / 4]
            else none
          else
            match b64Index c3 with
            | some n3 =>
              match b64DecodeChars rest with
              | some bs =>
                  some ((n0 * 4 + n1 / 16) :: (n1 % 16 * 16 + n2 / 4) ::
                        (n2 % 4 * 64 + n3) :: bs)
              | none => none
            | none => none
        | none => none
    | _, _ => none
  | _ => none

/-- JavaScript `atob`, returning the byte values of the decoded string. -/
def atob (s : String) : Option (List Nat) := b64DecodeChars s.data

theorem b64IndexChars_lt_length :
    ∀ (l : List Char) (c : Char) (n : Nat), b64IndexChars l c = some n → n < l.length := by
  intro l
  induction l with
  | nil => intro c n h; simp [b64IndexChars] at h
  | cons d ds ih =>
    intro c n h
    simp only [b64IndexChars] at h
    by_cases hd : d = c
    · rw [if_pos hd] at h
      cases h
      simp
    · rw [if_neg hd] at h
      cases hik : b64IndexChars ds c with
      | none => rw [hik] at h; simp at h
      | some k =>
        rw [hik] at h
        simp only [Option.map_some'] at h
        cases h
        have := ih c k hik
        simp only [List.length_cons]
        omega

theorem b64Index_lt (c : Char) (n : Nat) (h : b64Index c = some n) : n < 64 :=
  b64IndexChars_lt_length b64Alphabet c n h

theorem b64Index_b64Char : ∀ n, n < 64 → b64Index (b64Char n) = some n := by decide

theorem b64Char_ne_pad : ∀ n, n < 64 → b64Char n ≠ '=' := by decide

/-- Decoding inverts encoding on genuine byte lists. -/
theorem b64_roundtrip :
    ∀ bs : List Nat, (∀ b ∈ bs, b < 256) →
      b64DecodeChars (b64EncodeChars bs) = some bs
  | [] => fun _ => by simp [b64EncodeChars, b64DecodeChars]
  | [b0] => fun h => by
      have hb0 : b0 < 256 := h b0 (by simp)
      have h0 : b0 / 4 < 64 := by omega
      have h1 : b0 % 4 * 16 < 64 := by omega
      simp [b64EncodeChars, b64DecodeChars,
        b64Index_b64Char _ h0, b64Index_b64Char _ h1]
      omega
  | [b0, b1] => fun h => by
      have hb0 : b0 < 256 := h b0 (by simp)
      have hb1 : b1 < 256 := h b1 (by simp)
      have h0 : b0 / 4 < 64 := by omega
      have h1 : b0 % 4 * 16 + b1 / 16 < 64 := by omega
      have h2 : b1 % 16 * 4 < 64 := by omega
      simp [b64EncodeChars, b64DecodeChars,
        b64Index_b64Char _ h0, b64Index_b64Char _ h1, b64Index_b64Char _ h2,
        b64Char_ne_pad _ h2]
      omega
  | b0 :: b1 :: b2 :: rest => fun h => by
      have hb0 : b0 < 256 := h b0 (by simp)
      have hb1 : b1 < 256 := h b1 (by simp)
      have hb2 : b2 < 256 := h b2 (by simp)
      have h0 : b0 / 4 < 64 := by omega
      have h1 : b0 % 4 * 16 + b1 / 16 < 64 := by omega
      have h2 : b1 % 16 * 4 + b2 / 64 < 64 := by omega
      have h3 : b2 % 64 < 64 := by omega
      have ih : b64DecodeChars (b64EncodeChars rest) = some rest :=
        b64_roundtrip rest (fun b hb => h b (by simp [hb]))
      rw [b64EncodeChars_cons]
      simp [b64DecodeChars,
        b64Index_b64Char _ h0, b64Index_b64Char _ h1, b64Index_b64Char _ h2,
        b64Index_b64Char _ h3, b64Char_ne_pad _ h2, b64Char_ne_pad _ h3, ih]
      omega

/-- Every byte produced by the decoder is a genuine byte (`< 256`). -/
theorem b64Decode_lt :
    ∀ (cs : List Char) (bs : List Nat), b64DecodeChars cs = some bs →
      ∀ b ∈ bs, b < 256
  | [] => by intro bs h b hb; simp [b64DecodeChars] at h; subst h; simp at hb
  | [c] => by intro bs h; simp [show b64DecodeChars [c] = none from rfl] at h
  | [c0, c1] => by
      intro bs h; simp [show b64DecodeChars [c0, c1] = none from rfl] at h
  | [c0, c1, c2] => by
      intro bs h; simp [show b64DecodeChars [c0, c1, c2] = none from rfl] at h
  | c0 :: c1 :: c2 :: c3 :: rest => by
      intro bs h b hb
      simp only [b64DecodeChars] at h
      cases hi0 : b64Index c0 with
      | none => rw [hi0] at h; simp at h
      | some n0 =>
        cases hi1 : b64Index c1 with
        | none => rw [hi0, hi1] at h; simp at h
        | some n1 =>
          rw [hi0, hi1] at h
          simp only at h
          have hn0 := b64Index_lt c0 n0 hi0
          have hn1 := b64Index_lt c1 n1 hi1
          by_cases hc2 : c2 = '='
          · rw [if_pos hc2] at h
            by_cases hc3 : c3 = '=' ∧ rest = []
            · rw [if_pos hc3] at h
              cases h
              simp only [List.mem_singleton] at hb
              omega
            · rw [if_neg hc3] at h; simp at h
          · rw [if_neg hc2] at h
            cases hi2 : b64Index c2 with
            | none => rw [hi2] at h; simp at h
            | some n2 =>
              rw [hi2] at h
              simp only at h
              have hn2 := b64Index_lt c2 n2 hi2
              by_cases hc3 : c3 = '='
              · rw [if_pos hc3] at h
                by_cases hrest : rest = []
                · rw [if_pos hrest] at h
                  cases h
                  simp at hb
                  omega
                · rw [if_neg hrest] at h; simp at h
              · rw [if_neg hc3] at h
                cases hi3 : b64Index c3 with
                | none => rw [hi3] at h; simp at h
                | some n3 =>
                  rw [hi3] at h
                  simp only at h
                  have hn3 := b64Index_lt c3 n3 hi3
                  cases hrec : b64DecodeChars rest with
                  | none => rw [hrec] at h; simp at h
                  | some bs2 =>
                    rw [hrec] at h
                    cases h
                    simp only [List.mem_cons] at hb
                    rcases hb with hb | hb | hb | hb
                    · omega
                    · omega
                    · omega
                    · exact b64Decode_lt rest bs2 hrec b hb

/-- `atob` inverts `toBase64` on genuine byte lists. -/
theorem atob_toBase64 (bs : List Nat) (h : ∀ b ∈ bs, b < 256) :
    atob (toBase64 bs) = some bs := by
  simpa [atob, toBase64] using b64_roundtrip bs h

end B64

namespace Utf8

/-- UTF-8 encoding of a single Unicode code point (the encoding performed by
JavaScript `TextEncoder`). -/
def utf8EncodeCodePoint (n : Nat) : List Nat :=
  if n < 0x80 then [n]
  else if n < 0x800 then [0xc0 + n / 64, 0x80 + n % 64]
  else if n < 0x10000 then
    [0xe0 + n / 4096, 0x80 + n / 64 % 64, 0x80 + n % 64]
  else
    [0xf0 + n / 262144, 0x80 + n / 4096 % 64, 0x80 + n / 64 % 64, 0x80 + n % 64]

/-- The UTF-8 bytes of a string: JavaScript `new TextEncoder().encode(data)`. -/
def utf8Bytes (s : String) : List Nat :=
  s.data.flatMap (fun c => utf8EncodeCodePoint c.toNat)

theorem char_toNat_lt (c : Char) : c.toNat < 0x110000 := by
  have h := c.valid
  rcases h with h | h
  · exact Nat.lt_trans h (by norm_num)
  · exact h.2

theorem utf8EncodeCodePoint_lt (n : Nat) (h : n < 0x110000) :
    ∀ b ∈ utf8EncodeCodePoint n, b < 256 := by
  intro b hb
  unfold utf8EncodeCodePoint at hb
  split at hb
  · simp at hb; omega
  · split at hb
    · simp at hb; omega
    · split at hb
      · simp at hb; omega
      · simp at hb; omega

theorem utf8Bytes_lt (s : String) : ∀ b ∈ utf8Bytes s, b < 256 := by
  intro b hb
  simp only [utf8Bytes, List.mem_flatMap] at hb
  rcases hb with ⟨c, _, hc⟩
  exact utf8EncodeCodePoint_lt c.toNat (char_toNat_lt c) b hc

theorem utf8Bytes_append (s t : String) :
    utf8Bytes (s ++ t) = utf8Bytes s ++ utf8Bytes t := by
  simp [utf8Bytes, String.data_append]

end Utf8

namespace EscPos

open B64 Utf8

/-- `cmd(...bytes)` from `EscPos.ts`: a command is the base64 transport string
of its byte values (`btoa(String.fromCharCode(...bytes))`). -/
def cmd (bytes : List Nat) : String := toBase64 bytes

/-- ESC @ - Initialize printer. -/
def INIT : String := cmd [0x1b, 0x40]

/-- LF - Print and line feed. -/
def LF : String := cmd [0x0a]

/-- FF - Form feed (eject paper). -/
def FF : String := cmd [0x0c]

/-- Text alignment constants (TS `enum Align`). -/
inductive Align | LEFT | CENTER | RIGHT

/-- Numeric value of each `Align` member. -/
def Align.toNat : Align → Nat
  | .LEFT => 0
  | .CENTER => 1
  | .RIGHT => 2

/-- ESC a n - Set text alignment. -/
def setAlign (align : Align) : String := cmd [0x1b, 0x61, align.toNat]

/-- Text size constants (TS `enum TextSize`). -/
inductive TextSize | NORMAL | DOUBLE_HEIGHT | DOUBLE_WIDTH | DOUBLE_BOTH

/-- The `sizeMap` record inside `setTextSize`. -/
def sizeMap : TextSize → Nat
  | .NORMAL => 0x00
  | .DOUBLE_HEIGHT => 0x01
  | .DOUBLE_WIDTH => 0x10
  | .DOUBLE_BOTH => 0x11

/-- GS ! n - Set text size. -/
def setTextSize (size : TextSize) : String := cmd [0x1d, 0x21, sizeMap size]

/-- ESC E n - Bold on/off. -/
def BOLD_ON : String := cmd [0x1b, 0x45, 1]

/-- ESC E n - Bold off. -/
def BOLD_OFF : String := cmd [0x1b, 0x45, 0]

/-- ESC V n - Reverse mode on. -/
def REVERSE_ON : String := cmd [0x1b, 0x56, 1]

/-- ESC V n - Reverse mode off. -/
def REVERSE_OFF : String := cmd [0x1b, 0x56, 0]

/-- ESC - n - Underline single. -/
def UNDERLINE_ON : String := cmd [0x1b, 0x2d, 1]

/-- ESC - n - Underline double. -/
def UNDERLINE_DOUBLE : String := cmd [0x1b, 0x2d, 2]

/-- ESC - n - Underline off. -/
def UNDERLINE_OFF : String := cmd [0x1b, 0x2d, 0]

/-- Cut type (TS `enum CutType`). -/
inductive CutType | FULL | PARTIAL

/-- Numeric value of each `CutType` member. -/
def CutType.toNat : CutType → Nat
  | .FULL => 0
  | .PARTIAL => 1

/-- GS V m - Cut paper. -/
def cut (cutType : CutType) : String := cmd [0x1d, 0x56, cutType.toNat]

/-- Decode a list of base64 commands; `none` if any is malformed (in
`EscPos.ts` the `atob` call inside `combineCommands` would throw). -/
def decodeAll : List String → Option (List (List Nat))
  | [] => some []
  | c :: cs =>
    match atob c, decodeAll cs with
    | some bs, some bss => some (bs :: bss)
    | _, _ => none

/-- `combineCommands(...commands)` from `EscPos.ts`: decode each command with
`atob`, push all char codes in order into one array, re-encode with `btoa`. -/
def combineCommands (commands : List String) : Option String :=
  (decodeAll commands).map (fun bss => toBase64 bss.flatten)

/-- `text(data)`: a text print command, the UTF-8 encoding of the string. -/
def text (data : String) : String := cmd (utf8Bytes data)

/-- Paper size constants (58mm profile). -/
structure PaperSize where
  width : Nat
  charPerLine : Nat

/-- The fixed 58mm paper profile: 384 dots, 32 characters per line. -/
def PAPER_58MM : PaperSize := { width := 384, charPerLine := 32 }

/-- JavaScript `s.repeat(n)` (also `Array.from({length: n}, () => s).join("")`). -/
def strRepeat (s : String) : Nat → String
  | 0 => ""
  | n + 1 => s ++ strRepeat s n

/-- The JavaScript whitespace characters relevant to `trimEnd` here. -/
def jsWhitespace (c : Char) : Bool :=
  c == ' ' || c == '\t' || c == '\n' || c == '\r'

/-- JavaScript `String.prototype.trimEnd`: drop trailing whitespace. -/
def trimEndStr (s : String) : String :=
  String.mk (s.data.reverse.dropWhile jsWhitespace).reverse

/-- Styles accepted by `horizontalLine`. -/
inductive LineStyle | normal | dashed | double | hash

/-- The rule text for each style, per `horizontalLine` in `EscPos.ts`
(with `chars = PAPER_58MM.charPerLine`): `dashed` is sixteen `"- "` pairs
joined then `trimEnd()`ed; the others repeat one character 32 times. -/
def lineStyleString : LineStyle → String
  | .dashed => trimEndStr (strRepeat "- " (PAPER_58MM.charPerLine / 2))
  | .double => strRepeat "=" PAPER_58MM.charPerLine
  | .hash => strRepeat "#" PAPER_58MM.charPerLine
  | .normal => strRepeat "-" PAPER_58MM.charPerLine

/-- `horizontalLine(style)`: the style's rule text plus a newline, as a text
command. -/
def horizontalLine (style : LineStyle) : String :=
  text (lineStyleString style ++ "\n")

/-- JavaScript `x.toFixed(2)` for a non-negative decimal currency amount held
in cents: `450` renders as `"4.50"` exactly as `(4.5).toFixed(2)` does. -/
def toFixed2 (cents : Nat) : String :=
  Nat.repr (cents / 100) ++ "." ++
    (if cents % 100 < 10 then "0" else "") ++ Nat.repr (cents % 100)

/-- The `leftPart` template literal of `printLineItem`:
`"{quantity} x {price.toFixed(2)}"`. -/
def lineItemLeftPart (quantity priceCents : Nat) : String :=
  Nat.repr quantity ++ " x " ++ toFixed2 priceCents

/-- `printLineItem(name, quantity, price, total)` from `EscPos.ts`: the item
name on its own line, then `leftPart`, `Math.max(1, 32 - left - right - 2)`
spaces, and the total. Prices are modelled in cents. -/
def printLineItem (name : String) (quantity priceCents totalCents : Nat) :
    Option String :=
  let leftPart := lineItemLeftPart quantity priceCents
  let rightPart := toFixed2 totalCents
  let totalWidth := 32
  let spaces := max 1 (totalWidth - leftPart.length - rightPart.length - 2)
  let paddedSpaces := String.mk (List.replicate spaces ' ')
  combineCommands [text (name ++ "\n"),
                   text (leftPart ++ paddedSpaces ++ rightPart ++ "\n")]

/-- `printQRCode(data, size)` from `EscPos.ts`: center alignment, select
model 2, set module size, set error correction level L, store the UTF-8
data with `pL = (len+3) % 256`, `pH = (len+3) / 256`, then print. -/
def printQRCode (data : String) (size : Nat) : Option String :=
  let dataBytes := utf8Bytes data
  let storeLen := dataBytes.length + 3
  let pL := storeLen % 256
  let pH := storeLen / 256
  combineCommands
    [setAlign Align.CENTER,
     cmd [0x1d, 0x28, 0x6b, 0x04, 0x00, 0x31, 0x41, 0x32, 0x00],
     cmd [0x1d, 0x28, 0x6b, 0x03, 0x00, 0x31, 0x43, size],
     cmd [0x1d, 0x28, 0x6b, 0x03, 0x00, 0x31, 0x45, 0x30],
     cmd ([0x1d, 0x28, 0x6b, pL, pH, 0x31, 0x50, 0x30] ++ dataBytes),
     cmd [0x1d, 0x28, 0x6b, 0x03, 0x00, 0x31, 0x51, 0x30]]

/-- Modelled from the spec: `printJustify(left, right, gap?, width?)` is
exported from the EscPos API and documented in the README, but its
implementation file is not present under `src`. Per spec §4.2 it produces
`left`, right-padding spaces, then `right`, with total printable width
`width - gap`; if `left + right` already exceeds the available width,
`left` is truncated and suffixed with an ellipsis marker so the combined
line still fits exactly in `width` (the defaults are `gap = 0`,
`width = 32`). -/
def printJustifyLine (left right : String) (gap width : Nat) : String :=
  let avail := width - gap
  if left.length + right.length ≤ avail then
    left ++ String.mk (List.replicate (avail - left.length - right.length) ' ')
      ++ right
  else
    let leftTrunc := String.mk (left.data.take (avail - right.length - 3)) ++ "..."
    leftTrunc ++
      String.mk (List.replicate (avail - leftTrunc.length - right.length) ' ')
      ++ right

end EscPos

namespace EscPos

theorem atob_lt (s : String) (bs : List Nat) (h : B64.atob s = some bs) :
    ∀ b ∈ bs, b < 256 :=
  B64.b64Decode_lt s.data bs h

theorem decodeAll_encode :
    ∀ bss : List (List Nat), (∀ bs ∈ bss, ∀ b ∈ bs, b < 256) →
      decodeAll (bss.map B64.toBase64) = some bss
  | [] => fun _ => rfl
  | bs :: bss => fun h => by
      have h1 : B64.atob (B64.toBase64 bs) = some bs :=
        B64.atob_toBase64 bs (h bs (by simp))
      have h2 := decodeAll_encode bss (fun l hl => h l (by simp [hl]))
      simp [decodeAll, h1, h2]

theorem decodeAll_lt :
    ∀ (cs : List String) (bss : List (List Nat)), decodeAll cs = some bss →
      ∀ bs ∈ bss, ∀ b ∈ bs, b < 256
  | [] => by
      intro bss h bs hbs
      simp [decodeAll] at h
      subst h
      simp at hbs
  | c :: cs => by
      intro bss h bs hbs b hb
      simp only [decodeAll] at h
      cases ha : B64.atob c with
      | none => rw [ha] at h; simp at h
      | some l =>
        cases hd : decodeAll cs with
        | none => rw [ha, hd] at h; simp at h
        | some ls =>
          rw [ha, hd] at h
          cases h
          simp only [List.mem_cons] at hbs
          rcases hbs with hbs | hbs
          · subst hbs
            exact atob_lt c bs ha b hb
          · exact decodeAll_lt cs ls hd bs hbs b hb

theorem flatten_lt (bss : List (List Nat))
    (h : ∀ bs ∈ bss, ∀ b ∈ bs, b < 256) : ∀ b ∈ bss.flatten, b < 256 := by
  intro b hb
  rw [List.mem_flatten] at hb
  rcases hb with ⟨l, hl, hbl⟩
  exact h l hl b hbl

/-- `combineCommands` on well-formed commands is the in-order byte
concatenation, re-encoded. -/
theorem combineCommands_decoded (cs : List String) (bss : List (List Nat))
    (h : decodeAll cs = some bss) :
    combineCommands cs = some (B64.toBase64 bss.flatten) ∧
      B64.atob (B64.toBase64 bss.flatten) = some bss.flatten := by
  constructor
  · simp [combineCommands, h]
  · exact B64.atob_toBase64 _ (flatten_lt bss (decodeAll_lt cs bss h))

theorem combineCommands_encode (bss : List (List Nat))
    (h : ∀ bs ∈ bss, ∀ b ∈ bs, b < 256) :
    (combineCommands (bss.map B64.toBase64)).bind B64.atob =
      some bss.flatten := by
  have h1 := decodeAll_encode bss h
  have h2 := combineCommands_decoded (bss.map B64.toBase64) bss h1
  rw [h2.1]
  exact h2.2

end EscPos

namespace Bridge

/-- The promise-rejection codes used by the Kotlin module
(`RnBluetoothClassicPrinterModule`). -/
inductive ErrorCode
  | BLUETOOTH_NOT_AVAILABLE
  | BLUETOOTH_NOT_ENABLED
  | ACTIVITY_NOT_AVAILABLE
  | RECEIVER_REGISTRATION_FAILED
  | DISCOVERY_FAILED
  | CONNECTION_FAILED
  | DISCONNECT_FAILED
  | NOT_CONNECTED
  | INVALID_DATA
  | PRINT_FAILED
deriving DecidableEq

/-- A promise settles exactly once: resolving a value or rejecting with one
error code. -/
inductive Outcome
  | resolve (value : Bool)
  | reject (code : ErrorCode)
deriving DecidableEq

/-- The platform Bluetooth adapter, as far as the module reads it
(`adapter.isEnabled`, `adapter.isDiscovering`). -/
structure Adapter where
  enabled : Bool
  discovering : Bool
deriving DecidableEq

/-- A Bluetooth RFCOMM socket handle (`bluetoothSocket`): the remote device id
and whether `isConnected` holds. -/
structure Socket where
  deviceId : String
  connected : Bool
deriving DecidableEq

/-- The module's mutable state: the adapter (absent on hardware without
Bluetooth), the socket slot, the module's own `isDiscovering` flag, and
whether a discovery `BroadcastReceiver` is currently registered. -/
structure BridgeState where
  adapter : Option Adapter
  socket : Option Socket
  isDiscovering : Bool
  receiverRegistered : Bool
deriving DecidableEq

/-- Observable platform calls made by the module, in program order. -/
inductive Action
  | cancelDiscovery
  | postDelayed
  | unregisterReceiver
  | registerReceiver
  | startDiscoveryCall
  | socketConnect (deviceId : String)
  | socketWrite
deriving DecidableEq

/-- `printRaw(base64Data)` from the Kotlin module. `decodeOk` is whether
`Base64.decode` accepts the payload (it throws `IllegalArgumentException`
otherwise); `writeOk` is whether the socket write-and-flush succeeds (an
`IOException` otherwise). The result is the promise outcome, the state after
the call, and the platform calls performed. -/
def printRaw (st : BridgeState) (decodeOk writeOk : Bool) :
    Outcome × BridgeState × List Action :=
  match st.socket with
  | none => (.reject .NOT_CONNECTED, st, [])
  | some s =>
    if s.connected = false then (.reject .NOT_CONNECTED, st, [])
    else if decodeOk = false then (.reject .INVALID_DATA, st, [])
    else if writeOk = false then (.reject .PRINT_FAILED, st, [.socketWrite])
    else (.resolve true, st, [.socketWrite])

/-- `connectDevice(deviceId)` from the Kotlin module: reject when the adapter
is absent or disabled; otherwise cancel any in-flight discovery, create an
RFCOMM socket to the device (stored in the socket slot even if the connect
then fails) and connect; `connectOk` is whether `socket.connect()` succeeds. -/
def connectDevice (st : BridgeState) (deviceId : String) (connectOk : Bool) :
    Outcome × BridgeState × List Action :=
  match st.adapter with
  | none => (.reject .BLUETOOTH_NOT_AVAILABLE, st, [])
  | some a =>
    if a.enabled = false then (.reject .BLUETOOTH_NOT_ENABLED, st, [])
    else
      let cancelActs := if a.discovering then [Action.cancelDiscovery] else []
      let a2 := { a with discovering := false }
      let st2 := { st with adapter := some a2,
                           socket := some ⟨deviceId, connectOk⟩ }
      if connectOk then
        (.resolve true, st2, cancelActs ++ [Action.socketConnect deviceId])
      else
        (.reject .CONNECTION_FAILED, st2,
         cancelActs ++ [Action.socketConnect deviceId])

/-- The private `startDiscovery(adapter, promise)` helper: unregister any old
receiver, register a new one (`registerOk` is whether `registerReceiver`
throws), then `adapter.startDiscovery()` (`startOk` is its return value). -/
def startDiscoveryHelper (st : BridgeState) (registerOk startOk : Bool)
    (acc : List Action) : Outcome × BridgeState × List Action :=
  let acc1 := acc ++ (if st.receiverRegistered then [Action.unregisterReceiver]
                      else [])
  let st1 := { st with receiverRegistered := true }
  if registerOk = false then
    (.reject .RECEIVER_REGISTRATION_FAILED, st1, acc1 ++ [Action.registerReceiver])
  else if startOk then
    (.resolve true,
     { st1 with isDiscovering := true,
                adapter := st1.adapter.map (fun a => { a with discovering := true }) },
     acc1 ++ [Action.registerReceiver, Action.startDiscoveryCall])
  else
    (.reject .DISCOVERY_FAILED,
     { st1 with isDiscovering := false },
     acc1 ++ [Action.registerReceiver, Action.startDiscoveryCall])

/-- The native `startScanning` AsyncFunction: reject when the adapter is
absent or disabled; if the adapter is already discovering, cancel first and
start again after a 600 ms settle delay (`postDelayed`). -/
def startScanningNative (st : BridgeState) (registerOk startOk : Bool) :
    Outcome × BridgeState × List Action :=
  match st.adapter with
  | none => (.reject .BLUETOOTH_NOT_AVAILABLE, st, [])
  | some a =>
    if a.enabled = false then (.reject .BLUETOOTH_NOT_ENABLED, st, [])
    else if a.discovering then
      startDiscoveryHelper
        { st with adapter := some { a with discovering := false } }
        registerOk startOk [Action.cancelDiscovery, Action.postDelayed]
    else
      startDiscoveryHelper st registerOk startOk []

/-- What a caller of the public JS `startScanning` (src/index.ts) gets back:
an event subscription; the native promise is fired-and-forgotten, its
rejection caught and logged (`.catch(error => console.error(...))`), never
surfaced to the caller. -/
structure PublicScanResult where
  subscriptionReturned : Bool
  observedError : Option ErrorCode
  loggedError : Option ErrorCode
deriving DecidableEq

/-- The public `startScanning(listener)` wrapper from `src/index.ts`: adds the
`onDeviceFound` listener, calls the native `startScanning`, catches and logs
any rejection, and returns the subscription. -/
def startScanningPublic (st : BridgeState) (registerOk startOk : Bool) :
    PublicScanResult × BridgeState :=
  let r := startScanningNative st registerOk startOk
  match r.1 with
  | .resolve _ => (⟨true, none, none⟩, r.2.1)
  | .reject e => (⟨true, none, some e⟩, r.2.1)

/-- A device as handed to the discovery receiver by the platform
(`EXTRA_DEVICE`): MAC address and possibly-null friendly name. -/
structure PlatformDevice where
  address : String
  name : Option String
deriving DecidableEq

/-- An `ACTION_FOUND` broadcast intent: the device extra may be absent, and
the `EXTRA_RSSI` short extra may be absent. -/
structure FoundIntent where
  device : Option PlatformDevice
  rssiExtra : Option Int
deriving DecidableEq

/-- The `onDeviceFound` event payload built by the receiver. -/
structure DevicePayload where
  id : String
  name : String
  rssi : Int
deriving DecidableEq

/-- `Short.MIN_VALUE`, the default passed to `getShortExtra`. -/
def shortMinValue : Int := -32768

/-- The payload built by the discovery receiver for `ACTION_FOUND`:
`device?.address ?: ""`, `device?.name ?: "Unknown"`, and
`getShortExtra(EXTRA_RSSI, Short.MIN_VALUE)`. -/
def deviceFoundPayload (intent : FoundIntent) : DevicePayload :=
  { id := (intent.device.map PlatformDevice.address).getD ""
    name := (intent.device.bind PlatformDevice.name).getD "Unknown"
    rssi := intent.rssiExtra.getD shortMinValue }

/-- The two broadcast actions the receiver's `IntentFilter` subscribes to. -/
inductive ReceiverIntent
  | found (intent : FoundIntent)
  | discoveryFinished

/-- The `onDeviceFound` events sent by one `onReceive` call: exactly one per
`ACTION_FOUND` broadcast, none for `ACTION_DISCOVERY_FINISHED`. -/
def receiverEmit : ReceiverIntent → List DevicePayload
  | .found intent => [deviceFoundPayload intent]
  | .discoveryFinished => []

end Bridge

namespace EscPos

theorem utf8Bytes_newline : Utf8.utf8Bytes "\n" = [10] := by decide

theorem utf8Bytes_spaces (n : Nat) :
    Utf8.utf8Bytes (String.mk (List.replicate n ' ')) = List.replicate n 32 := by
  induction n with
  | zero => rfl
  | succ k ih =>
    simp only [Utf8.utf8Bytes] at ih ⊢
    rw [List.replicate_succ, List.replicate_succ, List.flatMap_cons]
    rw [show (List.replicate k ' ').flatMap
          (fun c => Utf8.utf8EncodeCodePoint c.toNat) = List.replicate k 32
        from ih]
    rfl

end EscPos

section Claims

open B64 Utf8 EscPos Bridge

/-- C1: each declared encoder constant and enum-indexed encoder function of
`EscPos.ts` carries exactly the tabulated ESC/POS byte sequence: INIT = 1B 40,
LF = 0A, FF = 0C, setAlign(left/center/right) = 1B 61 {0,1,2},
setTextSize(normal/double-height/double-width/double-both) =
1D 21 {00,01,10,11}, bold on/off = 1B 45 {1,0}, reverse on/off = 1B 56 {1,0},
underline off/single/double = 1B 2D {0,1,2}, cut(full/partial) =
1D 56 {0,1} (byte content read back through the base64 transport). -/
theorem escpos_encoder_byte_table :
    B64.atob INIT = some [0x1b, 0x40] ∧
    B64.atob LF = some [0x0a] ∧
    B64.atob FF = some [0x0c] ∧
    B64.atob (setAlign Align.LEFT) = some [0x1b, 0x61, 0] ∧
    B64.atob (setAlign Align.CENTER) = some [0x1b, 0x61, 1] ∧
    B64.atob (setAlign Align.RIGHT) = some [0x1b, 0x61, 2] ∧
    B64.atob (setTextSize TextSize.NORMAL) = some [0x1d, 0x21, 0x00] ∧
    B64.atob (setTextSize TextSize.DOUBLE_HEIGHT) = some [0x1d, 0x21, 0x01] ∧
    B64.atob (setTextSize TextSize.DOUBLE_WIDTH) = some [0x1d, 0x21, 0x10] ∧
    B64.atob (setTextSize TextSize.DOUBLE_BOTH) = some [0x1d, 0x21, 0x11] ∧
    B64.atob BOLD_ON = some [0x1b, 0x45, 1] ∧
    B64.atob BOLD_OFF = some [0x1b, 0x45, 0] ∧
    B64.atob REVERSE_ON = some [0x1b, 0x56, 1] ∧
    B64.atob REVERSE_OFF = some [0x1b, 0x56, 0] ∧
    B64.atob UNDERLINE_OFF = some [0x1b, 0x2d, 0] ∧
    B64.atob UNDERLINE_ON = some [0x1b, 0x2d, 1] ∧
    B64.atob UNDERLINE_DOUBLE = some [0x1b, 0x2d, 2] ∧
    B64.atob (cut CutType.FULL) = some [0x1d, 0x56, 0] ∧
    B64.atob (cut CutType.PARTIAL) = some [0x1d, 0x56, 1] := by decide

/-- C4: `combineCommands` of zero commands is the empty sequence; of two
commands it is the byte-for-byte concatenation of the bytes of the first then
the second; of any command list it is the in-order concatenation — no
reordering, no deduplication. -/
theorem combineCommands_spec :
    combineCommands [] = some "" ∧
    (∀ (a b : String) (bsa bsb : List Nat),
      B64.atob a = some bsa → B64.atob b = some bsb →
      ∃ out, combineCommands [a, b] = some out ∧
        B64.atob out = some (bsa ++ bsb)) ∧
    (∀ (cs : List String) (bss : List (List Nat)), decodeAll cs = some bss →
      ∃ out, combineCommands cs = some out ∧
        B64.atob out = some bss.flatten) := by
  refine ⟨by decide, ?_, ?_⟩
  · intro a b bsa bsb ha hb
    have hd : decodeAll [a, b] = some [bsa, bsb] := by
      simp [decodeAll, ha, hb]
    have h2 := combineCommands_decoded [a, b] [bsa, bsb] hd
    refine ⟨B64.toBase64 [bsa, bsb].flatten, h2.1, ?_⟩
    rw [h2.2]
    simp
  · intro cs bss h
    have h2 := combineCommands_decoded cs bss h
    exact ⟨B64.toBase64 bss.flatten, h2.1, h2.2⟩

/-- C4 witness: `combineCommands(INIT, LF)` concatenates `1B 40` and `0A`. -/
theorem combineCommands_spec_witness :
    ∃ out, combineCommands [INIT, LF] = some out ∧
      B64.atob out = some ([0x1b, 0x40] ++ [0x0a]) :=
  combineCommands_spec.2.1 INIT LF [0x1b, 0x40] [0x0a] (by decide) (by decide)

/-- C5 counterexample: the claim says every style emits exactly 32 characters
followed by one line feed (33 bytes); `horizontalLine("dashed")` actually
emits 32 bytes in total — its rule text is the 16 `"- "` pairs with the
trailing space trimmed, i.e. 31 characters, plus the line feed. -/
theorem horizontalLine_dashed_not_32 :
    (B64.atob (horizontalLine LineStyle.dashed)).map List.length = some 32 ∧
    ¬ (B64.atob (horizontalLine LineStyle.dashed)).map List.length = some 33 ∧
    (lineStyleString LineStyle.dashed).length = 31 := by decide

/-- C5 amended: `horizontalLine` emits exactly 32 characters plus one line
feed for the `normal` (`-`), `double` (`=`) and `hash` (`#`) styles; the
`dashed` style emits the alternating `"- "` pairs trimmed of trailing
whitespace — 31 characters — plus one line feed. -/
theorem horizontalLine_amended :
    B64.atob (horizontalLine LineStyle.normal) =
      some (List.replicate 32 45 ++ [10]) ∧
    B64.atob (horizontalLine LineStyle.double) =
      some (List.replicate 32 61 ++ [10]) ∧
    B64.atob (horizontalLine LineStyle.hash) =
      some (List.replicate 32 35 ++ [10]) ∧
    B64.atob (horizontalLine LineStyle.dashed) =
      some ((List.replicate 15 [45, 32]).flatten ++ [45, 10]) := by decide

end Claims

section Claims2

open B64 Utf8 EscPos Bridge

theorem string_length_mk (l : List Char) : (String.mk l).length = l.length := rfl

theorem string_append_empty (s : String) : s ++ "" = s := by
  apply String.ext
  simp [String.data_append]

/-- C2: `printQRCode(data, size)` emits, preceded by a center-alignment
command, the fixed Epson two-dimensional-code sequence — select model 2, set
module size, set error-correction level L, store the UTF-8 bytes of the data
with `pL = (len+3) % 256` and `pH = (len+3) / 256`, then trigger print. -/
theorem printQRCode_bytes (data : String) (size : Nat) (hsize : size < 256)
    (hlen : (utf8Bytes data).length + 3 < 65536) :
    (printQRCode data size).bind B64.atob =
      some ([0x1b, 0x61, 0x01] ++
            [0x1d, 0x28, 0x6b, 0x04, 0x00, 0x31, 0x41, 0x32, 0x00] ++
            [0x1d, 0x28, 0x6b, 0x03, 0x00, 0x31, 0x43, size] ++
            [0x1d, 0x28, 0x6b, 0x03, 0x00, 0x31, 0x45, 0x30] ++
            ([0x1d, 0x28, 0x6b, ((utf8Bytes data).length + 3) % 256,
              ((utf8Bytes data).length + 3) / 256, 0x31, 0x50, 0x30] ++
             utf8Bytes data) ++
            [0x1d, 0x28, 0x6b, 0x03, 0x00, 0x31, 0x51, 0x30]) := by
  have h := combineCommands_encode
    [[0x1b, 0x61, 1],
     [0x1d, 0x28, 0x6b, 0x04, 0x00, 0x31, 0x41, 0x32, 0x00],
     [0x1d, 0x28, 0x6b, 0x03, 0x00, 0x31, 0x43, size],
     [0x1d, 0x28, 0x6b, 0x03, 0x00, 0x31, 0x45, 0x30],
     [0x1d, 0x28, 0x6b, ((utf8Bytes data).length + 3) % 256,
      ((utf8Bytes data).length + 3) / 256, 0x31, 0x50, 0x30] ++ utf8Bytes data,
     [0x1d, 0x28, 0x6b, 0x03, 0x00, 0x31, 0x51, 0x30]]
    (by
      intro bs hbs
      simp only [List.mem_cons, List.not_mem_nil, or_false] at hbs
      rcases hbs with rfl | rfl | rfl | rfl | rfl | rfl
      · intro b hb; simp at hb; omega
      · intro b hb; simp at hb; omega
      · intro b hb; simp at hb; omega
      · intro b hb; simp at hb; omega
      · intro b hb
        rw [List.mem_append] at hb
        rcases hb with hb | hb
        · simp at hb; omega
        · exact utf8Bytes_lt data b hb
      · intro b hb; simp at hb; omega)
  rw [show printQRCode data size = combineCommands (List.map B64.toBase64
    [[0x1b, 0x61, 1],
     [0x1d, 0x28, 0x6b, 0x04, 0x00, 0x31, 0x41, 0x32, 0x00],
     [0x1d, 0x28, 0x6b, 0x03, 0x00, 0x31, 0x43, size],
     [0x1d, 0x28, 0x6b, 0x03, 0x00, 0x31, 0x45, 0x30],
     [0x1d, 0x28, 0x6b, ((utf8Bytes data).length + 3) % 256,
      ((utf8Bytes data).length + 3) / 256, 0x31, 0x50, 0x30] ++ utf8Bytes data,
     [0x1d, 0x28, 0x6b, 0x03, 0x00, 0x31, 0x51, 0x30]]) from rfl, h]
  simp

/-- C2 witness: the QR sequence at `data = "ab"`, `size = 8`. -/
theorem printQRCode_bytes_witness :
    8 < 256 ∧ (utf8Bytes "ab").length + 3 < 65536 ∧
    (printQRCode "ab" 8).bind B64.atob =
      some ([0x1b, 0x61, 0x01] ++
            [0x1d, 0x28, 0x6b, 0x04, 0x00, 0x31, 0x41, 0x32, 0x00] ++
            [0x1d, 0x28, 0x6b, 0x03, 0x00, 0x31, 0x43, 8] ++
            [0x1d, 0x28, 0x6b, 0x03, 0x00, 0x31, 0x45, 0x30] ++
            ([0x1d, 0x28, 0x6b, ((utf8Bytes "ab").length + 3) % 256,
              ((utf8Bytes "ab").length + 3) / 256, 0x31, 0x50, 0x30] ++
             utf8Bytes "ab") ++
            [0x1d, 0x28, 0x6b, 0x03, 0x00, 0x31, 0x51, 0x30]) :=
  ⟨by decide, by decide, printQRCode_bytes "ab" 8 (by decide) (by decide)⟩

/-- C6: `printLineItem(name, qty, price, total)` emits the item name on its
own line, then a second line of `"{qty} x {price.toFixed(2)}"`, at least one
separating space, and `total.toFixed(2)`; for the Latte example the second
line is `"2 x 4.50"`, 18 spaces, `"9.00"` — rendered width 30 ≤ 32. -/
theorem printLineItem_spec :
    (∀ (name : String) (quantity priceCents totalCents : Nat),
      ∃ n, 1 ≤ n ∧
        n = max 1 (32 - (lineItemLeftPart quantity priceCents).length
              - (toFixed2 totalCents).length - 2) ∧
        (printLineItem name quantity priceCents totalCents).bind B64.atob =
          some (utf8Bytes name ++ [10] ++
                (utf8Bytes (lineItemLeftPart quantity priceCents) ++
                 List.replicate n 32 ++ utf8Bytes (toFixed2 totalCents) ++
                 [10]))) ∧
    ((printLineItem "Latte" 2 450 900).bind B64.atob =
      some (utf8Bytes "Latte" ++ [10] ++
            (utf8Bytes "2 x 4.50" ++ List.replicate 18 32 ++
             utf8Bytes "9.00" ++ [10])) ∧
     (lineItemLeftPart 2 450).length + 18 + (toFixed2 900).length ≤ 32) := by
  constructor
  · intro name q p t
    refine ⟨max 1 (32 - (lineItemLeftPart q p).length - (toFixed2 t).length - 2),
      Nat.le_max_left 1 _, rfl, ?_⟩
    have h := combineCommands_encode
      [utf8Bytes (name ++ "\n"),
       utf8Bytes (lineItemLeftPart q p ++
         String.mk (List.replicate (max 1 (32 - (lineItemLeftPart q p).length -
           (toFixed2 t).length - 2)) ' ') ++ toFixed2 t ++ "\n")]
      (by
        intro bs hbs
        simp only [List.mem_cons, List.not_mem_nil, or_false] at hbs
        rcases hbs with rfl | rfl
        · exact utf8Bytes_lt _
        · exact utf8Bytes_lt _)
    rw [show printLineItem name q p t = combineCommands (List.map B64.toBase64
      [utf8Bytes (name ++ "\n"),
       utf8Bytes (lineItemLeftPart q p ++
         String.mk (List.replicate (max 1 (32 - (lineItemLeftPart q p).length -
           (toFixed2 t).length - 2)) ' ') ++ toFixed2 t ++ "\n")]) from rfl, h]
    simp [utf8Bytes_append, utf8Bytes_spaces, utf8Bytes_newline]
  · constructor
    · decide
    · decide

end Claims2

section Claims3

open B64 Utf8 EscPos Bridge

theorem printJustifyLine_length (left right : String) (gap : Nat)
    (h : gap + right.length + 3 ≤ 32) :
    (printJustifyLine left right gap 32).length = 32 - gap := by
  simp only [printJustifyLine]
  by_cases hlr : left.length + right.length ≤ 32 - gap
  · rw [if_pos hlr]
    simp only [String.length_append, string_length_mk, List.length_replicate]
    omega
  · rw [if_neg hlr]
    simp only [String.length_append, string_length_mk, List.length_replicate,
      List.length_take, show ("..." : String).length = 3 from rfl]
    omega

/-- C3 (the `printJustify` implementation is absent from `src`, modelled from
the spec): with the default `gap = 0` and `width = 32`, the line is exactly 32
characters, `left` anchored at the start, spaces, `right` anchored at the
end; when `left + right` exceeds the width, `left` is truncated and suffixed
with an ellipsis so the line still has length exactly 32; in general the
printable width is `width - gap`. -/
theorem printJustify_spec (left right : String) (h3 : right.length + 3 ≤ 32) :
    (left.length + right.length ≤ 32 →
      printJustifyLine left right 0 32 =
        left ++ String.mk (List.replicate (32 - left.length - right.length) ' ')
          ++ right) ∧
    (printJustifyLine left right 0 32).length = 32 ∧
    (32 < left.length + right.length →
      ∃ k pad, printJustifyLine left right 0 32 =
        String.mk (left.data.take k) ++ "..." ++ pad ++ right ∧
        k + 3 + pad.length + right.length = 32) ∧
    (∀ gap, gap + right.length + 3 ≤ 32 →
      (printJustifyLine left right gap 32).length = 32 - gap) := by
  refine ⟨?_, ?_, ?_, fun gap hg => printJustifyLine_length left right gap hg⟩
  · intro hlr
    simp only [printJustifyLine, Nat.sub_zero]
    rw [if_pos hlr]
  · simpa using printJustifyLine_length left right 0 (by omega)
  · intro hlr
    simp only [printJustifyLine, Nat.sub_zero]
    rw [if_neg (by omega)]
    exact ⟨32 - right.length - 3,
      String.mk (List.replicate (32 -
        (String.mk (left.data.take (32 - right.length - 3)) ++ "...").length -
        right.length) ' '), rfl, by
          simp only [String.length_append, string_length_mk,
            List.length_replicate, List.length_take,
            show ("..." : String).length = 3 from rfl]
          have hd : left.length = left.data.length := rfl
          omega⟩

/-- C3 witness: `printJustify("Coffee", "$3.50")` is exactly 32 characters,
left-anchored and right-anchored. -/
theorem printJustify_spec_witness :
    "$3.50".length + 3 ≤ 32 ∧
    (printJustifyLine "Coffee" "$3.50" 0 32).length = 32 ∧
    printJustifyLine "Coffee" "$3.50" 0 32 =
      "Coffee" ++ String.mk (List.replicate 21 ' ') ++ "$3.50" :=
  ⟨by decide, (printJustify_spec "Coffee" "$3.50" (by decide)).2.1,
   by
     have h := (printJustify_spec "Coffee" "$3.50" (by decide)).1 (by decide)
     simpa using h⟩

end Claims3

section Claims4

open Bridge

/-- C7: `printRaw` with no socket, or an unconnected socket, rejects with
`NOT_CONNECTED`, performs no write, and leaves the state unchanged; with a
connected socket it rejects `INVALID_DATA` on a malformed base64 payload
(before any write) and `PRINT_FAILED` on a transport write error; every
failure of `printRaw` leaves the prior state intact. -/
theorem printRaw_error_spec :
    ∀ (st : BridgeState) (decodeOk writeOk : Bool),
      ((st.socket = none ∨ ∃ s, st.socket = some s ∧ s.connected = false) →
        printRaw st decodeOk writeOk = (.reject .NOT_CONNECTED, st, [])) ∧
      (∀ s, st.socket = some s → s.connected = true → decodeOk = false →
        printRaw st decodeOk writeOk = (.reject .INVALID_DATA, st, [])) ∧
      (∀ s, st.socket = some s → s.connected = true → decodeOk = true →
        writeOk = false →
        printRaw st decodeOk writeOk =
          (.reject .PRINT_FAILED, st, [Action.socketWrite])) ∧
      (∀ o st2 acts e, printRaw st decodeOk writeOk = (o, st2, acts) →
        o = .reject e → st2 = st) := by
  intro st decodeOk writeOk
  refine ⟨?_, ?_, ?_, ?_⟩
  · intro h
    rcases h with h | ⟨s, hs, hc⟩
    · simp [printRaw, h]
    · simp [printRaw, hs, hc]
  · intro s hs hc hd
    simp [printRaw, hs, hc, hd]
  · intro s hs hc hd hw
    simp [printRaw, hs, hc, hd, hw]
  · intro o st2 acts e h _
    cases hsock : st.socket with
    | none => rw [printRaw, hsock] at h; cases h; rfl
    | some s =>
      rw [printRaw, hsock] at h
      simp only at h
      by_cases hc : s.connected = false
      · rw [if_pos hc] at h; cases h; rfl
      · rw [if_neg hc] at h
        by_cases hd : decodeOk = false
        · rw [if_pos hd] at h; cases h; rfl
        · rw [if_neg hd] at h
          by_cases hw : writeOk = false
          · rw [if_pos hw] at h; cases h; rfl
          · rw [if_neg hw] at h; cases h; rfl

/-- C7 witness: with no socket at all, `printRaw` rejects `NOT_CONNECTED`
with no write and the state unchanged. -/
theorem printRaw_error_spec_witness :
    printRaw ⟨none, none, false, false⟩ true true =
      (.reject .NOT_CONNECTED, ⟨none, none, false, false⟩, []) :=
  (printRaw_error_spec ⟨none, none, false, false⟩ true true).1 (Or.inl rfl)

/-- C8: whenever `connectDevice` runs while the adapter is discovering (and
the preconditions pass), the cancel-discovery call strictly precedes the
socket connect call in the performed platform calls — discovery and
connection are never attempted simultaneously. -/
theorem connectDevice_cancels_discovery_first :
    ∀ (st : BridgeState) (a : Adapter) (deviceId : String) (connectOk : Bool),
      st.adapter = some a → a.enabled = true → a.discovering = true →
      (connectDevice st deviceId connectOk).2.2 =
        [Action.cancelDiscovery, Action.socketConnect deviceId] ∧
      ∃ i j, i < j ∧
        (connectDevice st deviceId connectOk).2.2.get? i =
          some Action.cancelDiscovery ∧
        (connectDevice st deviceId connectOk).2.2.get? j =
          some (Action.socketConnect deviceId) := by
  intro st a deviceId connectOk ha he hd
  have htrace : (connectDevice st deviceId connectOk).2.2 =
      [Action.cancelDiscovery, Action.socketConnect deviceId] := by
    cases connectOk <;> simp [connectDevice, ha, he, hd]
  exact ⟨htrace, 0, 1, by omega, by rw [htrace]; rfl, by rw [htrace]; rfl⟩

/-- C8 witness: a discovering, enabled adapter yields the trace
cancel-then-connect. -/
theorem connectDevice_cancels_discovery_first_witness :
    (connectDevice ⟨some ⟨true, true⟩, none, true, true⟩ "00:11:22:33:44:55"
        true).2.2 =
      [Action.cancelDiscovery, Action.socketConnect "00:11:22:33:44:55"] :=
  (connectDevice_cancels_discovery_first ⟨some ⟨true, true⟩, none, true, true⟩
    ⟨true, true⟩ "00:11:22:33:44:55" true rfl rfl rfl).1

/-- C9 counterexample: with no Bluetooth adapter the native `startScanning`
rejects `BLUETOOTH_NOT_AVAILABLE`, but the public `startScanning` wrapper of
`src/index.ts` catches and logs that rejection, so its caller observes no
failure — contradicting the claim that the caller observes it. -/
theorem startScanning_public_swallows_rejection :
    (startScanningNative ⟨none, none, false, false⟩ true true).1 =
      .reject .BLUETOOTH_NOT_AVAILABLE ∧
    (startScanningPublic ⟨none, none, false, false⟩ true true).1.observedError
      = none ∧
    ¬ (startScanningPublic ⟨none, none, false, false⟩ true
        true).1.observedError = some .BLUETOOTH_NOT_AVAILABLE := by decide

/-- C9 amended: the native `startScanning` fails with
`BLUETOOTH_NOT_AVAILABLE` when no adapter exists and `BLUETOOTH_NOT_ENABLED`
when the adapter is disabled; every call settles with a result or with
exactly one error code; the public wrapper returns the subscription and
catches any native rejection, logging it instead of surfacing it to its
caller. -/
theorem startScanning_error_spec :
    ∀ (st : BridgeState) (registerOk startOk : Bool),
      (st.adapter = none →
        (startScanningNative st registerOk startOk).1 =
          .reject .BLUETOOTH_NOT_AVAILABLE) ∧
      (∀ a, st.adapter = some a → a.enabled = false →
        (startScanningNative st registerOk startOk).1 =
          .reject .BLUETOOTH_NOT_ENABLED) ∧
      ((∃ b, (startScanningNative st registerOk startOk).1 = .resolve b) ∨
       (∃ e, (startScanningNative st registerOk startOk).1 = .reject e ∧
         ∀ e2, (startScanningNative st registerOk startOk).1 = .reject e2 →
           e2 = e)) ∧
      (∀ e, (startScanningNative st registerOk startOk).1 = .reject e →
        (startScanningPublic st registerOk startOk).1.observedError = none ∧
        (startScanningPublic st registerOk startOk).1.loggedError = some e ∧
        (startScanningPublic st registerOk startOk).1.subscriptionReturned =
          true) := by
  intro st registerOk startOk
  refine ⟨?_, ?_, ?_, ?_⟩
  · intro h
    simp [startScanningNative, h]
  · intro a ha he
    simp [startScanningNative, ha, he]
  · cases ho : (startScanningNative st registerOk startOk).1 with
    | resolve b => exact Or.inl ⟨b, rfl⟩
    | reject e =>
      refine Or.inr ⟨e, rfl, fun e2 h2 => ?_⟩
      cases h2
      rfl
  · intro e he
    simp [startScanningPublic, he]

/-- C9 amended witness: no adapter rejects `BLUETOOTH_NOT_AVAILABLE` and the
public wrapper swallows it. -/
theorem startScanning_error_spec_witness :
    (startScanningNative ⟨none, none, false, false⟩ true true).1 =
      .reject .BLUETOOTH_NOT_AVAILABLE ∧
    (startScanningPublic ⟨none, none, false, false⟩ true true).1.loggedError =
      some .BLUETOOTH_NOT_AVAILABLE :=
  ⟨(startScanning_error_spec ⟨none, none, false, false⟩ true true).1 rfl,
   ((startScanning_error_spec ⟨none, none, false, false⟩ true true).2.2.2
     .BLUETOOTH_NOT_AVAILABLE
     ((startScanning_error_spec ⟨none, none, false, false⟩ true true).1
       rfl)).2.1⟩

/-- C10: every `ACTION_FOUND` broadcast produces exactly one `onDeviceFound`
event whose payload always carries an `rssi` value — the sentinel
`Short.MIN_VALUE = -32768` when the intent has no signal-strength extra —
and a missing platform device yields `id = ""` and `name = "Unknown"`
rather than an omitted event. -/
theorem onDeviceFound_payload_total :
    ∀ intent : FoundIntent,
      (intent.rssiExtra = none →
        (deviceFoundPayload intent).rssi = shortMinValue ∧
        (deviceFoundPayload intent).rssi = -32768) ∧
      (∀ r, intent.rssiExtra = some r → (deviceFoundPayload intent).rssi = r) ∧
      (intent.device = none →
        (deviceFoundPayload intent).id = "" ∧
        (deviceFoundPayload intent).name = "Unknown") ∧
      receiverEmit (ReceiverIntent.found intent) = [deviceFoundPayload intent] := by
  intro intent
  refine ⟨?_, ?_, ?_, rfl⟩
  · intro h
    constructor <;> simp [deviceFoundPayload, h, shortMinValue]
  · intro r h
    simp [deviceFoundPayload, h]
  · intro h
    constructor <;> simp [deviceFoundPayload, h]

/-- C10 witness: an `ACTION_FOUND` intent with no device extra and no rssi
extra still yields one event with the sentinel rssi, empty id and
`"Unknown"` name. -/
theorem onDeviceFound_payload_total_witness :
    (deviceFoundPayload ⟨none, none⟩).rssi = -32768 ∧
    (deviceFoundPayload ⟨none, none⟩).id = "" ∧
    (deviceFoundPayload ⟨none, none⟩).name = "Unknown" ∧
    receiverEmit (ReceiverIntent.found ⟨none, none⟩) =
      [deviceFoundPayload ⟨none, none⟩] :=
  ⟨((onDeviceFound_payload_total ⟨none, none⟩).1 rfl).2,
   ((onDeviceFound_payload_total ⟨none, none⟩).2.2.1 rfl).1,
   ((onDeviceFound_payload_total ⟨none, none⟩).2.2.1 rfl).2,
   (onDeviceFound_payload_total ⟨none, none⟩).2.2.2⟩

end Claims4
